import Mathlib

/-!
Verification of the wallpaper image-proxy service.

This file shallowly embeds the service's pure logic:

* `src/lib/wallpaper-utils.ts`: `getWallpaperList`, `getBingWallpaperList`,
  `getAvailableSources` and the data model they operate on.  The `async`
  catalog loaders perform network I/O; their outcome is passed in as an
  `Except` value (`.ok data` for a successful load, `.error ()` for a load
  that threw), which is exactly the information the functions branch on.
* `src/api/v1/index.ts`: `validateImageUrl`, `convertToProxyUrl`,
  `convertToOriginalUrl`, the `ProxyStats` store with `updateProxyStats` /
  `resetProxyStats`.
* the image-proxy wildcard GET handler (`app.get('/*')` in the findaphoto
  route file): embedded as a function from the request path and the origin
  fetch outcome to the produced response together with the list of
  statistics-updater calls the handler performs.

JavaScript primitives used by that code (`parseInt`, `String.prototype
.includes`, `Array.prototype.slice`, `new Set`, `Array.prototype.sort`,
`new URL`, regular-expression matching) are modelled by the `js*` functions
below; each carries a comment stating which primitive it models and under
which assumptions the model is exact.
-/

/-- Model of JavaScript `parseInt(s, 10)`: skip leading whitespace, read an
optional sign, then the longest prefix of decimal digits; `none` models the
`NaN` result when no digit is found. -/
def jsParseInt (s : String) : Option Int :=
  let t := s.data.dropWhile Char.isWhitespace
  let signAndDigits : Int × List Char :=
    match t with
    | '-' :: rest => (-1, rest)
    | '+' :: rest => (1, rest)
    | _ => (1, t)
  let ds := signAndDigits.2.takeWhile Char.isDigit
  if ds.isEmpty then none
  else some (signAndDigits.1 * (ds.foldl (fun n c => n * 10 + (c.toNat - 48)) 0 : Nat))

/-- Does `pat` occur as a contiguous run inside `s`? (helper for `jsIncludes`). -/
def hasSub (pat : List Char) : List Char → Bool
  | [] => pat.isEmpty
  | c :: cs => pat.isPrefixOf (c :: cs) || hasSub pat cs

/-- Model of JavaScript `a.includes(b)` for strings: substring containment,
`true` when `b` is empty. -/
def jsIncludes (a b : String) : Bool :=
  hasSub b.data a.data

/-- Model of JavaScript `xs.slice(s, e)` for `0 ≤ s ≤ e`: the elements at
indices `[s, e)`. -/
def jsSlice {α : Type} (xs : List α) (s e : Nat) : List α :=
  (xs.drop s).take (e - s)

/-- Model of the JavaScript default `x || d` for an optional string `x`:
both `undefined` and the empty string are falsy and fall back to `d`. -/
def jsOrElse (s : Option String) (d : String) : String :=
  match s with
  | none => d
  | some v => if v = "" then d else v

/-- `WallpaperItem` from `src/lib/wallpaper-utils.ts` (the numeric fields
`rate`/`like` are only carried around, never inspected). -/
structure WallpaperItem where
  rawSrc : String
  colors : List String
  rate : Int
  like : Int
  _id : String
  imgId : String
  dimensions : String
  source : String
deriving DecidableEq

/-- The `data` payload of `WallpaperListResponse`. -/
structure WallpaperListData where
  list : List WallpaperItem
  total : Nat
  page : Int
  totalPage : Nat
deriving DecidableEq

/-- `WallpaperListResponse` from `src/lib/wallpaper-utils.ts`. -/
structure WallpaperListResponse where
  code : Nat
  data : WallpaperListData
  message : String
deriving DecidableEq

/-- The source-filter step of `getWallpaperList`: when `source` is supplied,
truthy (non-empty) and not blank after trimming, keep the items whose
`source` field case-insensitively contains the filter string. -/
def filterBySource (allData : List WallpaperItem) (source : Option String) :
    List WallpaperItem :=
  match source with
  | none => allData
  | some s =>
    if s ≠ "" ∧ s.trim ≠ "" then
      allData.filter (fun item => jsIncludes item.source.toLower s.toLower)
    else allData

/-- `getWallpaperList` from `src/lib/wallpaper-utils.ts`.  `loadResult` is
the outcome of `loadWallpaperData()`; a load that threw is caught by the
surrounding `try` and becomes the 500 response.  `Math.ceil(total /
pageSize)` on naturals with `pageSize > 0` is `(total + pageSize - 1) /
pageSize`, written here with natural subtraction and division. -/
def getWallpaperList (loadResult : Except Unit (List WallpaperItem))
    (page : Option String) (source : Option String) (pageSize : Nat) :
    WallpaperListResponse :=
  match loadResult with
  | .error _ => ⟨500, ⟨[], 0, 1, 0⟩, "Internal server error"⟩
  | .ok allData =>
    let filteredData := filterBySource allData source
    match jsParseInt (jsOrElse page "1") with
    | none => ⟨400, ⟨[], 0, 1, 0⟩, "Invalid page number"⟩
    | some currentPage =>
      if currentPage < 1 then ⟨400, ⟨[], 0, 1, 0⟩, "Invalid page number"⟩
      else
        let total := filteredData.length
        let totalPage := (total + pageSize - 1) / pageSize
        let startIndex := ((currentPage - 1) * pageSize).toNat
        let endIndex := startIndex + pageSize
        ⟨200, ⟨jsSlice filteredData startIndex endIndex, total, currentPage, totalPage⟩,
          "Success"⟩

/-- Model of `[...new Set(l)]`: first occurrences kept, in order. -/
def jsSetOfList (l : List String) : List String :=
  l.foldl (fun acc x => if x ∈ acc then acc else acc ++ [x]) []

/-- Lexicographic comparison of character lists by code point — the order
JavaScript's default string comparator induces (code points and UTF-16 code
units order strings identically for the basic-multilingual-plane text
appearing here). -/
def charListLe : List Char → List Char → Bool
  | [], _ => true
  | _ :: _, [] => false
  | a :: as, b :: bs =>
    if a.toNat < b.toNat then true
    else if b.toNat < a.toNat then false
    else charListLe as bs

/-- String-level wrapper for `charListLe`. -/
def jsStringLe (a b : String) : Bool :=
  charListLe a.data b.data

/-- Model of `Array.prototype.sort()` on an array of strings: the default
comparator sorts strings lexicographically.  Since the input here has no
duplicates, every correct sort produces the same list, so insertion sort is
an exact model. -/
def jsSortStrings (l : List String) : List String :=
  List.insertionSort (fun a b => jsStringLe a b = true) l

/-- `getAvailableSources` from `src/lib/wallpaper-utils.ts`; the `catch`
turns a failed catalog load into `[]`. -/
def getAvailableSources (loadResult : Except Unit (List WallpaperItem)) :
    List String :=
  match loadResult with
  | .error _ => []
  | .ok allData => jsSortStrings (jsSetOfList (allData.map (·.source)))

/-- `BingWallpaperItem` from `src/lib/wallpaper-utils.ts` (`hs: any[]` is an
opaque pass-through array, modelled as a list of strings). -/
structure BingWallpaperItem where
  startdate : String
  fullstartdate : String
  enddate : String
  url : String
  urlbase : String
  copyright : String
  copyrightlink : String
  title : String
  quiz : String
  wp : Bool
  hsh : String
  drk : Int
  top : Int
  bot : Int
  hs : List String
deriving DecidableEq

/-- The `data` payload of `BingWallpaperResponse`. -/
structure BingWallpaperData where
  url : String
  list : List BingWallpaperItem
  total : Nat
  date : String
deriving DecidableEq

/-- `BingWallpaperResponse` from `src/lib/wallpaper-utils.ts`. -/
structure BingWallpaperResponse where
  code : Nat
  data : BingWallpaperData
  message : String
deriving DecidableEq

/-- `getBingWallpaperList` from `src/lib/wallpaper-utils.ts`.  `nowISO`
stands for `new Date().toISOString()`.  On an empty feed, `bingData[0]` is
`undefined` and reading `.url` on it throws a `TypeError`; the throw happens
inside the function's own `try`, so its `catch` converts it into the same
500 response as a failed fetch.  The empty-list branch below is that caught
throw. -/
def getBingWallpaperList (loadResult : Except Unit (List BingWallpaperItem))
    (nowISO : String) : BingWallpaperResponse :=
  match loadResult with
  | .error _ => ⟨500, ⟨"", [], 0, nowISO⟩, "Internal server error"⟩
  | .ok bingData =>
    match bingData with
    | [] => ⟨500, ⟨"", [], 0, nowISO⟩, "Internal server error"⟩
    | first :: _ =>
      ⟨200, ⟨"https://www.bing.com" ++ first.url, bingData, bingData.length, nowISO⟩,
        "Success"⟩

/-- `ProxyStats` from `src/api/v1/index.ts`; response times are modelled as
rationals so the running mean is exact. -/
structure ProxyStats where
  totalRequests : Nat
  successfulRequests : Nat
  failedRequests : Nat
  cacheHits : Nat
  averageResponseTime : ℚ
  lastRequestTime : String

/-- The module-initialization value of the `proxyStats` global; `now` stands
for `new Date().toISOString()`. -/
def initialProxyStats (now : String) : ProxyStats :=
  ⟨0, 0, 0, 0, 0, now⟩

/-- `resetProxyStats` from `src/api/v1/index.ts`: replaces the store with
fresh zeroes regardless of its previous value. -/
def resetProxyStats (now : String) : ProxyStats :=
  ⟨0, 0, 0, 0, 0, now⟩

/-- `updateProxyStats` from `src/api/v1/index.ts`.  The source increments
`totalRequests` first and then uses the incremented value `n` in the running
mean `(prevAvg * (n - 1) + responseTime) / n`. -/
def updateProxyStats (s : ProxyStats) (success : Bool) (responseTime : ℚ)
    (fromCache : Bool) (now : String) : ProxyStats :=
  let n := s.totalRequests + 1
  { totalRequests := n
    successfulRequests := s.successfulRequests + (if success then 1 else 0)
    failedRequests := s.failedRequests + (if success then 0 else 1)
    cacheHits := s.cacheHits + (if fromCache then 1 else 0)
    averageResponseTime := (s.averageResponseTime * ((n : ℚ) - 1) + responseTime) / (n : ℚ)
    lastRequestTime := now }

/-- One recorded invocation of `updateProxyStats` (its argument list). -/
structure StatsUpdate where
  success : Bool
  responseTime : ℚ
  fromCache : Bool
  now : String

/-- Fold a sequence of `updateProxyStats` calls over a starting state. -/
def applyUpdates (s : ProxyStats) (updates : List StatsUpdate) : ProxyStats :=
  updates.foldl (fun st u => updateProxyStats st u.success u.responseTime u.fromCache u.now) s

/-- The fields of a parsed `URL` object that the repository reads, kept as
character lists (`protocol` includes the trailing colon, `hostname` and the
scheme are lowercased by the parser, `pathname` starts with a slash). -/
structure URLObj where
  protocol : List Char
  hostname : List Char
  pathname : List Char
deriving DecidableEq

/-- Characters accepted in a scheme by this model (letters; enough for the
`http`/`https`/`ftp`-style inputs the repository deals with). -/
def isSchemeChar (c : Char) : Bool := c.isAlpha

/-- Characters that terminate the host portion of a URL. -/
def isHostTermChar (c : Char) : Bool := c == '/' || c == '?' || c == '#'

/-- Characters that terminate the path portion of a URL. -/
def isPathTermChar (c : Char) : Bool := c == '?' || c == '#'

/-- Split a list at the first occurrence of `pat`, returning the part before
and the part after it; `none` when `pat` does not occur. -/
def splitFirst (pat : List Char) : List Char → Option (List Char × List Char)
  | [] => if pat.isEmpty then some ([], []) else none
  | c :: cs =>
    if pat.isPrefixOf (c :: cs) then some ([], (c :: cs).drop pat.length)
    else
      match splitFirst pat cs with
      | none => none
      | some (a, b) => some (c :: a, b)

/-- Model of `new URL(s)` for absolute `scheme://host/path` URLs, restricted
to the shapes the repository feeds it: the text before the first `://` is
the scheme (all letters, lowercased into `protocol`), the host runs to the
first `/`, `?` or `#` (lowercased into `hostname`), and `pathname` is the
rest up to a `?` or `#` (defaulting to `/`).  Inputs outside this shape
(no `://`, empty scheme or host, non-letter scheme characters) are `none`,
modelling the `TypeError` thrown by the `URL` constructor. -/
def jsParseURLCore (s : List Char) : Option URLObj :=
  match splitFirst (':' :: '/' :: '/' :: []) s with
  | none => none
  | some (schemeCs, rest) =>
    if schemeCs.isEmpty || !schemeCs.all isSchemeChar then none
    else
      let hostCs := rest.takeWhile (fun c => !isHostTermChar c)
      if hostCs.isEmpty then none
      else
        let afterHost := rest.drop hostCs.length
        let pathCs := afterHost.takeWhile (fun c => !isPathTermChar c)
        some ⟨schemeCs.map Char.toLower ++ [':'], hostCs.map Char.toLower,
          if pathCs.isEmpty then ['/'] else pathCs⟩

/-- String-level wrapper for `jsParseURLCore`. -/
def jsParseURL (s : String) : Option URLObj := jsParseURLCore s.data

/-- `validExtensions` from `validateImageUrl` in `src/api/v1/index.ts`. -/
def validExtensions : List String :=
  [".jpg", ".jpeg", ".png", ".webp", ".gif", ".bmp"]

/-- `urlObj.pathname.toLowerCase().endsWith(ext)` for some allowed `ext`. -/
def hasValidExtension (pathname : List Char) : Bool :=
  validExtensions.any (fun ext => List.isSuffixOf ext.data (pathname.map Char.toLower))

/-- The `{valid, reason?}` record returned by `validateImageUrl`. -/
structure ValidationResult where
  valid : Bool
  reason : Option String
deriving DecidableEq

/-- `validateImageUrl` from `src/api/v1/index.ts`: parse failure, then
protocol check, then extension check; first failure wins. -/
def validateImageUrl (url : String) : ValidationResult :=
  match jsParseURL url with
  | none => ⟨false, some "Invalid URL format"⟩
  | some urlObj =>
    if urlObj.protocol ∉ ["http:".data, "https:".data] then
      ⟨false, some "Invalid protocol"⟩
    else if !hasValidExtension urlObj.pathname then
      ⟨false, some "Invalid image extension"⟩
    else ⟨true, none⟩

/-- `ProxyConfig` from `src/api/v1/index.ts`. -/
structure ProxyConfig where
  baseUrl : String
  originalDomain : String
  proxyPath : String

/-- `DEFAULT_PROXY_CONFIG` from `src/api/v1/index.ts`. -/
def DEFAULT_PROXY_CONFIG : ProxyConfig :=
  ⟨"https://your-domain.vercel.app", "infinitypro-img.infinitynewtab.com", "/api/wallpaper"⟩

/-- Model of matching `s` against the regular expression `/<pat>\/(.+)/`
where `pat` is a literal: the capture is everything after the first
occurrence of the literal that is followed by at least one character (URL
pathnames contain no raw newline, so `.+` captures the whole tail; when the
tail at an occurrence is empty the scan continues at the next position, as
the regex engine would). -/
def captureTail (pat : List Char) : List Char → Option (List Char)
  | [] => none
  | c :: cs =>
    if pat.isPrefixOf (c :: cs) && !((c :: cs).drop pat.length).isEmpty then
      some ((c :: cs).drop pat.length)
    else captureTail pat cs

/-- `convertToProxyUrl` from `src/api/v1/index.ts`: parse, check the
hostname against `config.originalDomain`, match `/\/wallpaper\/(.+)/`
against the pathname, and rebuild under `config.baseUrl ++
config.proxyPath`.  A `URL` constructor throw is caught and becomes
`null`. -/
def convertToProxyUrl (originalUrl : String) (config : ProxyConfig) : Option String :=
  match jsParseURL originalUrl with
  | none => none
  | some url =>
    if url.hostname ≠ config.originalDomain.data then none
    else
      match captureTail "/wallpaper/".data url.pathname with
      | none => none
      | some path => some (config.baseUrl ++ config.proxyPath ++ "/" ++ path.asString)

/-- `convertToOriginalUrl` from `src/api/v1/index.ts`: the regex built from
`config.proxyPath` (slashes escaped, no other metacharacters in the default
configuration) is the literal `proxyPath` followed by `\/(.+)`. -/
def convertToOriginalUrl (proxyUrl : String) (config : ProxyConfig) : Option String :=
  match jsParseURL proxyUrl with
  | none => none
  | some url =>
    match captureTail (config.proxyPath ++ "/").data url.pathname with
    | none => none
    | some path =>
      some ("https://" ++ config.originalDomain ++ "/wallpaper/" ++ path.asString)

/-- Outcome of the origin `fetch` in the proxy handler: either the awaited
call (or a later `await` on the body) throws, or the origin responds with
the given status code. -/
inductive FetchOutcome where
  | throws
  | respond (status : Nat)
deriving DecidableEq

/-- The `(success, fromCache)` argument pair of one `updateProxyStats` call
(the `responseTime` argument is wall-clock time, outside the embedding). -/
structure StatsCall where
  success : Bool
  fromCache : Bool
deriving DecidableEq

/-- The response shapes the wildcard proxy handler can produce. -/
inductive ProxyResult where
  | jsonError (status : Nat)
  | notModified
  | image
deriving DecidableEq

/-- The fixed origin prefix used by the findaphoto proxy handler. -/
def findaphotoBase : String :=
  "https://infinitypro-img.infinitynewtab.com/findaphoto/"

/-- The leading-slash strip at the top of the wildcard handler. -/
def stripLeadingSlash (path : String) : String :=
  if path.startsWith "/" then path.drop 1 else path

/-- The image-proxy wildcard GET handler (`app.get('/*')` in the findaphoto
route file), as a function of the extracted path parameter and of the origin
fetch outcome.  It returns the response together with the list of
`updateProxyStats` calls performed, in order: empty path and failed URL
validation are rejected before the fetch; a thrown fetch (or body read) is
caught by the handler's `catch`; a 304 is answered before the `response.ok`
check; `response.ok` is `200 ≤ status < 300`; a non-ok status outside
400–599 is clamped to 404. -/
def proxyHandler (rawPath : String) (outcome : FetchOutcome) :
    ProxyResult × List StatsCall :=
  let path := stripLeadingSlash rawPath
  if path = "" then (.jsonError 400, [⟨false, false⟩])
  else
    let originalUrl := findaphotoBase ++ path
    if (validateImageUrl originalUrl).valid = false then
      (.jsonError 400, [⟨false, false⟩])
    else
      match outcome with
      | .throws => (.jsonError 500, [⟨false, false⟩])
      | .respond status =>
        if status = 304 then (.notModified, [⟨true, true⟩])
        else if !(decide (200 ≤ status) && decide (status < 300)) then
          (.jsonError (if 400 ≤ status ∧ status < 600 then status else 404),
            [⟨false, false⟩])
        else (.image, [⟨true, false⟩])

/-- Modelled from the spec: the single statistics call each control path of
the proxy handler is expected to perform — failure when the path is empty,
when URL validation fails, when the origin returns a non-304 non-2xx status
or when an exception is caught; success with `fromCache` on a 304; success
without `fromCache` on a 2xx. -/
def specExpectedStatsCall (rawPath : String) (outcome : FetchOutcome) : StatsCall :=
  let path := stripLeadingSlash rawPath
  if path = "" then ⟨false, false⟩
  else if (validateImageUrl (findaphotoBase ++ path)).valid = false then ⟨false, false⟩
  else
    match outcome with
    | .throws => ⟨false, false⟩
    | .respond status =>
      if status = 304 then ⟨true, true⟩
      else if 200 ≤ status ∧ status ≤ 299 then ⟨true, false⟩
      else ⟨false, false⟩

/-- A 45-item catalog used to witness the pagination claims on the spec's
concrete example sizes. -/
def catalog45 : List WallpaperItem :=
  (List.range 45).map (fun n => ⟨"", [], 0, 0, toString n, "", "", "demo"⟩)

/-- The three-item catalog of the spec's `getAvailableSources` example. -/
def demoSourcesCatalog : List WallpaperItem :=
  [⟨"", [], 0, 0, "", "", "", "Unsplash"⟩,
   ⟨"", [], 0, 0, "", "", "", "unsplash"⟩,
   ⟨"", [], 0, 0, "", "", "", "Pexels"⟩]

/-- A conservative set of characters that the `URL` constructor copies
verbatim into `pathname` (no percent-encoding, no path normalization, not a
query/fragment delimiter and not matched specially by `.` in a regex).  The
real wallpaper paths, e.g. `bigLink/17021.jpg`, use only these. -/
def isSafePathChar (c : Char) : Bool :=
  c.isAlphanum || c == '/' || c == '.' || c == '-' || c == '_' || c == '~'

lemma updateProxyStats_total (s : ProxyStats) (b : Bool) (r : ℚ) (f : Bool) (n : String) :
    (updateProxyStats s b r f n).totalRequests = s.totalRequests + 1 := rfl

lemma applyUpdates_sum_eq (updates : List StatsUpdate) :
    ∀ s : ProxyStats, s.successfulRequests + s.failedRequests = s.totalRequests →
      (applyUpdates s updates).successfulRequests + (applyUpdates s updates).failedRequests
        = (applyUpdates s updates).totalRequests := by
  induction updates with
  | nil => intro s h; exact h
  | cons u rest ih =>
    intro s h
    apply ih
    simp only [updateProxyStats]
    split_ifs <;> simp <;> omega

lemma applyUpdates_cacheHits_le_total (updates : List StatsUpdate) :
    ∀ s : ProxyStats, s.cacheHits ≤ s.totalRequests →
      (applyUpdates s updates).cacheHits ≤ (applyUpdates s updates).totalRequests := by
  induction updates with
  | nil => intro s h; exact h
  | cons u rest ih =>
    intro s h
    apply ih
    simp only [updateProxyStats]
    split_ifs <;> simp <;> omega

/-- C3: after any finite sequence of `updateProxyStats` calls starting from
the initial state or from any state produced by `resetProxyStats`, the
statistics satisfy `successfulRequests + failedRequests = totalRequests`
and `cacheHits ≤ totalRequests`. -/
theorem proxyStats_invariant_after_updates (t0 t1 : String) (updates : List StatsUpdate) :
    ((applyUpdates (initialProxyStats t0) updates).successfulRequests
          + (applyUpdates (initialProxyStats t0) updates).failedRequests
        = (applyUpdates (initialProxyStats t0) updates).totalRequests
      ∧ (applyUpdates (initialProxyStats t0) updates).cacheHits
        ≤ (applyUpdates (initialProxyStats t0) updates).totalRequests)
    ∧ ((applyUpdates (resetProxyStats t1) updates).successfulRequests
          + (applyUpdates (resetProxyStats t1) updates).failedRequests
        = (applyUpdates (resetProxyStats t1) updates).totalRequests
      ∧ (applyUpdates (resetProxyStats t1) updates).cacheHits
        ≤ (applyUpdates (resetProxyStats t1) updates).totalRequests) :=
  ⟨⟨applyUpdates_sum_eq updates _ rfl, applyUpdates_cacheHits_le_total updates _ (Nat.le_refl 0)⟩,
   ⟨applyUpdates_sum_eq updates _ rfl, applyUpdates_cacheHits_le_total updates _ (Nat.le_refl 0)⟩⟩

/-- C4 counterexample: `updateProxyStats` increments `cacheHits` whenever
`fromCache` is set, regardless of `success`, so the single call
`updateProxyStats(false, 0, true)` from the initial state yields
`cacheHits = 1 > 0 = successfulRequests`, refuting the claim for arbitrary
call sequences. -/
theorem cacheHits_gt_successful_counterexample :
    ¬ ((applyUpdates (initialProxyStats "t0") [⟨false, 0, true, "t1"⟩]).cacheHits
        ≤ (applyUpdates (initialProxyStats "t0") [⟨false, 0, true, "t1"⟩]).successfulRequests) := by
  decide

lemma applyUpdates_cacheHits_le_successful (updates : List StatsUpdate)
    (h : ∀ u ∈ updates, u.fromCache = true → u.success = true) :
    ∀ s : ProxyStats, s.cacheHits ≤ s.successfulRequests →
      (applyUpdates s updates).cacheHits ≤ (applyUpdates s updates).successfulRequests := by
  induction updates with
  | nil => intro s hs; exact hs
  | cons u rest ih =>
    intro s hs
    apply ih (fun v hv => h v (List.mem_cons_of_mem u hv))
    have hu := h u (List.mem_cons_self u rest)
    simp only [updateProxyStats]
    split_ifs with h1 h2 <;> simp_all <;> omega

/-- C4 (amended): in every state reachable from the initial (or reset)
state by `updateProxyStats` calls in which `fromCache` is only ever set
together with `success` — which is how the proxy handler invokes the
updater — `cacheHits ≤ successfulRequests` holds. -/
theorem cacheHits_le_successful_of_cached_implies_success (t0 t1 : String)
    (updates : List StatsUpdate)
    (h : ∀ u ∈ updates, u.fromCache = true → u.success = true) :
    (applyUpdates (initialProxyStats t0) updates).cacheHits
        ≤ (applyUpdates (initialProxyStats t0) updates).successfulRequests
    ∧ (applyUpdates (resetProxyStats t1) updates).cacheHits
        ≤ (applyUpdates (resetProxyStats t1) updates).successfulRequests :=
  ⟨applyUpdates_cacheHits_le_successful updates h _ (Nat.le_refl 0),
   applyUpdates_cacheHits_le_successful updates h _ (Nat.le_refl 0)⟩

/-- Witness for the amended C4 at a concrete two-call sequence (a cached
success followed by a non-cached failure). -/
theorem cacheHits_le_successful_witness :
    (∀ u ∈ ([⟨true, 5, true, "a"⟩, ⟨false, 3, false, "b"⟩] : List StatsUpdate),
        u.fromCache = true → u.success = true)
    ∧ (applyUpdates (initialProxyStats "t0")
          [⟨true, 5, true, "a"⟩, ⟨false, 3, false, "b"⟩]).cacheHits
        ≤ (applyUpdates (initialProxyStats "t0")
          [⟨true, 5, true, "a"⟩, ⟨false, 3, false, "b"⟩]).successfulRequests :=
  ⟨by decide,
   (cacheHits_le_successful_of_cached_implies_success "t0" "t1" _ (by decide)).1⟩

/-- C2: every invocation of the image-proxy wildcard GET handler performs
exactly one `updateProxyStats` call, and its `(success, fromCache)`
arguments on each control path are the ones the spec describes. -/
theorem proxyHandler_one_stats_call (rawPath : String) (outcome : FetchOutcome) :
    (proxyHandler rawPath outcome).2 = [specExpectedStatsCall rawPath outcome] := by
  cases outcome with
  | throws =>
    simp only [proxyHandler, specExpectedStatsCall]
    split_ifs <;> rfl
  | respond status =>
    simp only [proxyHandler, specExpectedStatsCall]
    split_ifs <;> simp_all <;> omega

lemma getWallpaperList_ok_eq (catalog : List WallpaperItem) (src : Option String)
    (pageSize : Nat) (s : String) (p : Int)
    (hparse : jsParseInt s = some p) (hp : 1 ≤ p) :
    getWallpaperList (Except.ok catalog) (some s) src pageSize =
      ⟨200, ⟨jsSlice (filterBySource catalog src) ((p - 1) * (pageSize : Int)).toNat
          (((p - 1) * (pageSize : Int)).toNat + pageSize),
        (filterBySource catalog src).length, p,
        ((filterBySource catalog src).length + pageSize - 1) / pageSize⟩, "Success"⟩ := by
  have hlt : ¬ p < 1 := by omega
  have hs : s ≠ "" := by
    intro h
    subst h
    rw [show jsParseInt "" = none from rfl] at hparse
    exact Option.noConfusion hparse
  have hor : jsOrElse (some s) "1" = s := by simp [jsOrElse, hs]
  simp only [getWallpaperList, hor, hparse, hlt, if_false]

lemma getWallpaperList_bad_page_eq (catalog : List WallpaperItem) (src : Option String)
    (pageSize : Nat) (s : String) (hs : s ≠ "")
    (h : jsParseInt s = none ∨ ∃ p, jsParseInt s = some p ∧ p < 1) :
    getWallpaperList (Except.ok catalog) (some s) src pageSize =
      ⟨400, ⟨[], 0, 1, 0⟩, "Invalid page number"⟩ := by
  have hor : jsOrElse (some s) "1" = s := by simp [jsOrElse, hs]
  rcases h with h | ⟨p, hp, hlt⟩
  · simp only [getWallpaperList, hor, h]
  · simp only [getWallpaperList, hor, hp, hlt, if_true]

/-- C1: for every successfully loaded catalog, source filter, `pageSize > 0`
and page string parsing to `p ≥ 1`, `getWallpaperList` returns `code = 200`
with `total` the filtered length, `totalPage = ⌈total / pageSize⌉` and
`list` the slice `[(p-1)*pageSize, p*pageSize)` of the filtered list; a page
beyond `totalPage` simply receives the (empty) slice, not an error. -/
theorem getWallpaperList_paginates (catalog : List WallpaperItem) (src : Option String)
    (pageSize : Nat) (s : String) (p : Int)
    (hparse : jsParseInt s = some p) (hp : 1 ≤ p) (hps : 0 < pageSize) :
    getWallpaperList (Except.ok catalog) (some s) src pageSize =
      ⟨200, ⟨jsSlice (filterBySource catalog src) ((p - 1).toNat * pageSize)
          (p.toNat * pageSize),
        (filterBySource catalog src).length, p,
        (filterBySource catalog src).length ⌈/⌉ pageSize⟩, "Success"⟩ := by
  rw [getWallpaperList_ok_eq catalog src pageSize s p hparse hp]
  obtain ⟨q, hq⟩ : ∃ q : Nat, p - 1 = (q : Int) := ⟨(p - 1).toNat, by omega⟩
  have h1 : ((p - 1) * (pageSize : Int)).toNat = (p - 1).toNat * pageSize := by
    rw [hq, ← Nat.cast_mul, Int.toNat_natCast, Int.toNat_natCast]
  have h2 : p.toNat * pageSize = (p - 1).toNat * pageSize + pageSize := by
    have : p.toNat = (p - 1).toNat + 1 := by omega
    rw [this, Nat.succ_mul]
  rw [h1, h2, Nat.ceilDiv_eq_add_pred_div]

/-- Witness for C1 on the spec's 45-item example: page "3" with page size 20
takes the slice `[40, 60)`; pages 1, 3 and 4 have 20, 5 and 0 items with
`code = 200` and `totalPage = 3` throughout. -/
theorem getWallpaperList_paginates_witness :
    jsParseInt "3" = some 3 ∧ (1 : Int) ≤ 3 ∧ 0 < 20 ∧
    getWallpaperList (Except.ok catalog45) (some "3") none 20 =
      ⟨200, ⟨jsSlice (filterBySource catalog45 none) (((3 : Int) - 1).toNat * 20)
          ((3 : Int).toNat * 20),
        (filterBySource catalog45 none).length, 3,
        (filterBySource catalog45 none).length ⌈/⌉ 20⟩, "Success"⟩ ∧
    (getWallpaperList (Except.ok catalog45) (some "1") none 20).data.list.length = 20 ∧
    (getWallpaperList (Except.ok catalog45) (some "3") none 20).data.list.length = 5 ∧
    (getWallpaperList (Except.ok catalog45) (some "3") none 20).data.totalPage = 3 ∧
    (getWallpaperList (Except.ok catalog45) (some "4") none 20).code = 200 ∧
    (getWallpaperList (Except.ok catalog45) (some "4") none 20).data.list = [] :=
  ⟨by decide, by decide, by decide,
   getWallpaperList_paginates catalog45 none 20 "3" 3 (by decide) (by decide) (by decide),
   by decide, by decide, by decide, by decide, by decide⟩

/-- C6 counterexample: the empty page string also "fails to parse as an
integer" (`parseInt("")` is `NaN`), yet `getWallpaperList` returns
`code = 200` with page 1 rather than the claimed 400: the JavaScript
`page || '1'` default treats `""` as falsy and substitutes "1" before the
parse ever happens. -/
theorem getWallpaperList_empty_page_counterexample :
    jsParseInt "" = none ∧
    getWallpaperList (Except.ok catalog45) (some "") none 20
        ≠ ⟨400, ⟨[], 0, 1, 0⟩, "Invalid page number"⟩ ∧
    (getWallpaperList (Except.ok catalog45) (some "") none 20).code = 200 ∧
    (getWallpaperList (Except.ok catalog45) (some "") none 20).data.page = 1 :=
  ⟨rfl, by decide, by decide, by decide⟩

/-- C6 (amended): when the catalog load succeeds and the page parameter is a
non-empty string that fails to parse as an integer or parses to an integer
below 1, `getWallpaperList` returns `code = 400` with message "Invalid page
number" and the empty result `list = [], total = 0, page = 1,
totalPage = 0`; the empty page string instead falls back to the default
page 1 with `code = 200`. -/
theorem getWallpaperList_rejects_invalid_page (catalog : List WallpaperItem)
    (src : Option String) (pageSize : Nat) (s : String) (hs : s ≠ "")
    (h : jsParseInt s = none ∨ ∃ p, jsParseInt s = some p ∧ p < 1) :
    getWallpaperList (Except.ok catalog) (some s) src pageSize =
      ⟨400, ⟨[], 0, 1, 0⟩, "Invalid page number"⟩ :=
  getWallpaperList_bad_page_eq catalog src pageSize s hs h

/-- Witness for the amended C6 at page "abc" (parse failure), together with
a direct check of the other spec example, page "0" (parses below 1). -/
theorem getWallpaperList_rejects_invalid_page_witness :
    "abc" ≠ "" ∧
    (jsParseInt "abc" = none ∨ ∃ p, jsParseInt "abc" = some p ∧ p < 1) ∧
    getWallpaperList (Except.ok catalog45) (some "abc") none 20 =
      ⟨400, ⟨[], 0, 1, 0⟩, "Invalid page number"⟩ ∧
    getWallpaperList (Except.ok catalog45) (some "0") none 20 =
      ⟨400, ⟨[], 0, 1, 0⟩, "Invalid page number"⟩ :=
  ⟨by decide, Or.inl (by decide),
   getWallpaperList_rejects_invalid_page catalog45 none 20 "abc" (by decide)
     (Or.inl (by decide)),
   by decide⟩

/-- C10: `getWallpaperList` accepts page strings that merely begin with
digits: whenever `parseInt` extracts a leading integer `p ≥ 1` — as it does
for strings with trailing non-numeric characters such as "2abc" — the call
returns `code = 200` and treats the page as `p`. -/
theorem getWallpaperList_digit_prefixed_page (catalog : List WallpaperItem)
    (src : Option String) (pageSize : Nat) (s : String) (p : Int)
    (hparse : jsParseInt s = some p) (hp : 1 ≤ p) :
    (getWallpaperList (Except.ok catalog) (some s) src pageSize).code = 200 ∧
    (getWallpaperList (Except.ok catalog) (some s) src pageSize).data.page = p := by
  rw [getWallpaperList_ok_eq catalog src pageSize s p hparse hp]
  exact ⟨rfl, rfl⟩

/-- Witness for C10 at the page string "2abc", whose longest leading numeric
prefix is 2. -/
theorem getWallpaperList_digit_prefixed_page_witness :
    jsParseInt "2abc" = some 2 ∧ (1 : Int) ≤ 2 ∧
    (getWallpaperList (Except.ok catalog45) (some "2abc") none 20).code = 200 ∧
    (getWallpaperList (Except.ok catalog45) (some "2abc") none 20).data.page = 2 :=
  ⟨by decide, by decide,
   (getWallpaperList_digit_prefixed_page catalog45 none 20 "2abc" 2 (by decide) (by decide)).1,
   (getWallpaperList_digit_prefixed_page catalog45 none 20 "2abc" 2 (by decide) (by decide)).2⟩

lemma jsSetAux_mem (l : List String) :
    ∀ (acc : List String) (x : String),
      x ∈ l.foldl (fun a y => if y ∈ a then a else a ++ [y]) acc ↔ x ∈ acc ∨ x ∈ l := by
  induction l with
  | nil => intro acc x; simp
  | cons y ys ih =>
    intro acc x
    simp only [List.foldl_cons]
    by_cases hy : y ∈ acc
    · rw [if_pos hy, ih]
      constructor
      · rintro (h | h)
        · exact Or.inl h
        · exact Or.inr (List.mem_cons_of_mem y h)
      · rintro (h | h)
        · exact Or.inl h
        · rcases List.mem_cons.1 h with rfl | h
          · exact Or.inl hy
          · exact Or.inr h
    · rw [if_neg hy, ih]
      simp only [List.mem_append, List.mem_singleton, List.mem_cons]
      tauto
  
lemma jsSetAux_nodup (l : List String) :
    ∀ acc : List String, acc.Nodup →
      (l.foldl (fun a y => if y ∈ a then a else a ++ [y]) acc).Nodup := by
  induction l with
  | nil => intro acc h; exact h
  | cons y ys ih =>
    intro acc h
    simp only [List.foldl_cons]
    by_cases hy : y ∈ acc
    · rw [if_pos hy]; exact ih acc h
    · rw [if_neg hy]
      apply ih
      simp [List.nodup_append, h, hy]

lemma jsSetOfList_mem (l : List String) (x : String) :
    x ∈ jsSetOfList l ↔ x ∈ l := by
  unfold jsSetOfList
  rw [jsSetAux_mem]
  simp

lemma jsSetOfList_nodup (l : List String) : (jsSetOfList l).Nodup :=
  jsSetAux_nodup l [] List.nodup_nil

lemma charListLe_total : ∀ as bs : List Char,
    charListLe as bs = true ∨ charListLe bs as = true := by
  intro as
  induction as with
  | nil => intro bs; left; rfl
  | cons a as ih =>
    intro bs
    cases bs with
    | nil => right; rfl
    | cons b bs =>
      simp only [charListLe]
      rcases Nat.lt_trichotomy a.toNat b.toNat with h | h | h
      · left; rw [if_pos h]
      · rw [if_neg (by omega), if_neg (by omega), if_neg (by omega), if_neg (by omega)]
        exact ih bs
      · right; rw [if_pos h]

lemma charListLe_trans : ∀ as bs cs : List Char,
    charListLe as bs = true → charListLe bs cs = true → charListLe as cs = true := by
  intro as
  induction as with
  | nil => intro bs cs _ _; rfl
  | cons a as ih =>
    intro bs cs h1 h2
    cases bs with
    | nil => simp [charListLe] at h1
    | cons b bs =>
      cases cs with
      | nil => simp [charListLe] at h2
      | cons c cs =>
        simp only [charListLe] at h1 h2 ⊢
        split_ifs at h1 h2 ⊢ <;> simp_all <;> try omega
        exact ih bs cs h1 h2

/-- C8 counterexample: on the catalog with sources "Unsplash", "unsplash",
"Pexels", the case-sensitive dedup keeps both "Unsplash" and "unsplash", so
the result is not the two-element list the claim states. -/
theorem getAvailableSources_counterexample :
    getAvailableSources (Except.ok demoSourcesCatalog) ≠ ["Pexels", "Unsplash"] := by
  decide

/-- C8 (amended): `getAvailableSources` returns the lexicographically sorted
list of case-sensitively distinct source values of the loaded catalog and
never throws (empty list on load failure); on the example catalog with
sources "Unsplash", "unsplash", "Pexels" it returns all three values,
`["Pexels", "Unsplash", "unsplash"]`. -/
theorem getAvailableSources_sorted_distinct :
    getAvailableSources (Except.error ()) = [] ∧
    (∀ catalog : List WallpaperItem,
      List.Sorted (fun a b => jsStringLe a b = true) (getAvailableSources (Except.ok catalog)) ∧
      (getAvailableSources (Except.ok catalog)).Nodup ∧
      ∀ x, (x ∈ getAvailableSources (Except.ok catalog) ↔ x ∈ catalog.map (·.source))) ∧
    getAvailableSources (Except.ok demoSourcesCatalog) = ["Pexels", "Unsplash", "unsplash"] := by
  refine ⟨rfl, fun catalog => ⟨?_, ?_, fun x => ?_⟩, by decide⟩
  · haveI : IsTotal String (fun a b => jsStringLe a b = true) :=
      ⟨fun a b => charListLe_total a.data b.data⟩
    haveI : IsTrans String (fun a b => jsStringLe a b = true) :=
      ⟨fun a b c => charListLe_trans a.data b.data c.data⟩
    exact List.sorted_insertionSort _ _
  · show (List.insertionSort _ (jsSetOfList (catalog.map (·.source)))).Nodup
    rw [(List.perm_insertionSort _ _).nodup_iff]
    exact jsSetOfList_nodup _
  · show x ∈ List.insertionSort _ (jsSetOfList (catalog.map (·.source))) ↔ _
    rw [List.mem_insertionSort, jsSetOfList_mem]

/-- C9 counterexample: when the feed fetch succeeds but yields zero entries,
the caught `TypeError` from `bingData[0].url` yields exactly the same
`code = 500` empty result as a fetch failure — so that result is not
produced only on fetch failure, and the call resolves with it rather than
propagating an error. -/
theorem getBingWallpaperList_empty_feed_counterexample :
    getBingWallpaperList (Except.ok ([] : List BingWallpaperItem)) "T"
        = ⟨500, ⟨"", [], 0, "T"⟩, "Internal server error"⟩ ∧
    getBingWallpaperList (Except.ok ([] : List BingWallpaperItem)) "T"
        = getBingWallpaperList (Except.error ()) "T" :=
  ⟨rfl, rfl⟩

/-- C9 (amended): an empty feed never produces the normal `code = 200`
response — the unconditional `bingData[0].url` indexing throws and the local
`catch` converts it into the same `code = 500` empty result as a fetch
failure — while any non-empty feed produces `code = 200`. -/
theorem getBingWallpaperList_empty_feed (t : String) :
    getBingWallpaperList (Except.ok ([] : List BingWallpaperItem)) t
        = getBingWallpaperList (Except.error ()) t ∧
    (getBingWallpaperList (Except.ok ([] : List BingWallpaperItem)) t).code = 500 ∧
    (getBingWallpaperList (Except.ok ([] : List BingWallpaperItem)) t).code ≠ 200 ∧
    ∀ (first : BingWallpaperItem) (rest : List BingWallpaperItem),
      (getBingWallpaperList (Except.ok (first :: rest)) t).code = 200 :=
  ⟨rfl, rfl, fun h => by simp [getBingWallpaperList] at h, fun _ _ => rfl⟩

lemma isPrefixOf_append_self : ∀ l t : List Char, l.isPrefixOf (l ++ t) = true := by
  intro l t
  induction l with
  | nil => simp [List.isPrefixOf]
  | cons c cs ih => simpa [List.isPrefixOf] using ih

lemma splitFirst_scheme (scheme rest : List Char) (h : ∀ c ∈ scheme, c ≠ ':') :
    splitFirst (':' :: '/' :: '/' :: []) (scheme ++ ':' :: '/' :: '/' :: rest)
      = some (scheme, rest) := by
  induction scheme with
  | nil =>
    have hpre : (':' :: '/' :: '/' :: []).isPrefixOf (':' :: '/' :: '/' :: rest) = true := by
      simpa using isPrefixOf_append_self (':' :: '/' :: '/' :: []) rest
    simp [splitFirst, hpre]
  | cons c cs ih =>
    have hc : c ≠ ':' := h c (List.mem_cons_self c cs)
    have hpre : (':' :: '/' :: '/' :: []).isPrefixOf
        (c :: (cs ++ ':' :: '/' :: '/' :: rest)) = false := by
      simp [List.isPrefixOf]
      intro h'
      exact absurd h'.symm hc
    simp only [List.cons_append, splitFirst, List.append_eq, hpre, Bool.false_eq_true,
      if_false]
    rw [ih (fun x hx => h x (List.mem_cons_of_mem c hx))]

lemma takeWhile_append_of_all {q : Char → Bool} :
    ∀ l₁ l₂ : List Char, (∀ c ∈ l₁, q c = true) →
      (l₁ ++ l₂).takeWhile q = l₁ ++ l₂.takeWhile q := by
  intro l₁ l₂ h
  induction l₁ with
  | nil => rfl
  | cons c cs ih =>
    have hc : q c = true := h c (List.mem_cons_self c cs)
    simp only [List.cons_append, List.takeWhile_cons, hc, if_true]
    rw [ih (fun x hx => h x (List.mem_cons_of_mem c hx))]

lemma takeWhile_eq_self_of_all {q : Char → Bool} :
    ∀ l : List Char, (∀ c ∈ l, q c = true) → l.takeWhile q = l := by
  intro l h
  induction l with
  | nil => rfl
  | cons c cs ih =>
    have hc : q c = true := h c (List.mem_cons_self c cs)
    simp only [List.takeWhile_cons, hc, if_true]
    rw [ih (fun x hx => h x (List.mem_cons_of_mem c hx))]

lemma jsParseURLCore_std (scheme host path : List Char)
    (hs1 : scheme ≠ []) (hs2 : scheme.all isSchemeChar = true)
    (hs3 : ∀ c ∈ scheme, c ≠ ':')
    (hh1 : host ≠ []) (hh2 : ∀ c ∈ host, isHostTermChar c = false)
    (hp : ∀ c ∈ path, isPathTermChar c = false) :
    jsParseURLCore (scheme ++ ':' :: '/' :: '/' :: (host ++ '/' :: path))
      = some ⟨scheme.map Char.toLower ++ [':'], host.map Char.toLower, '/' :: path⟩ := by
  have hhost : (host ++ '/' :: path).takeWhile (fun c => !isHostTermChar c) = host := by
    rw [takeWhile_append_of_all host ('/' :: path) (fun c hc => by simp [hh2 c hc])]
    simp [List.takeWhile_cons, isHostTermChar]
  have hpath : ('/' :: path).takeWhile (fun c => !isPathTermChar c) = '/' :: path := by
    apply takeWhile_eq_self_of_all
    intro c hc
    rcases List.mem_cons.1 hc with rfl | hc
    · rfl
    · simp [hp c hc]
  have hcond : (scheme.isEmpty || !scheme.all isSchemeChar) = false := by
    cases scheme with
    | nil => exact absurd rfl hs1
    | cons c cs => simp_all
  simp only [jsParseURLCore, splitFirst_scheme scheme _ hs3, hcond, Bool.false_eq_true,
    if_false, hhost, hpath]
  cases host with
  | nil => exact absurd rfl hh1
  | cons hd tl =>
    simp only [List.isEmpty_cons, Bool.false_eq_true, if_false]
    rw [List.drop_left, hpath]
    simp

lemma captureTail_at_head (pat rest : List Char) (hp : pat ≠ []) (hr : rest ≠ []) :
    captureTail pat (pat ++ rest) = some rest := by
  obtain ⟨p0, ps, rfl⟩ := List.exists_cons_of_ne_nil hp
  have hd : (p0 :: (ps ++ rest)).drop (p0 :: ps).length = rest := by
    rw [← List.cons_append, List.drop_left]
  have hpre : (p0 :: ps).isPrefixOf (p0 :: (ps ++ rest)) = true := by
    rw [← List.cons_append]
    exact isPrefixOf_append_self (p0 :: ps) rest
  show captureTail (p0 :: ps) (p0 :: (ps ++ rest)) = some rest
  simp only [captureTail, hd, hpre, Bool.true_and]
  cases rest with
  | nil => exact absurd rfl hr
  | cons r0 rs => simp

/-- C5: `validateImageUrl(url)` is valid exactly when the url parses, its
protocol is http(s) and its path ends case-insensitively in an allowed image
extension; the protocol check runs before the extension check, so when both
fail the reported reason is "Invalid protocol"; a missing extension is
rejected regardless of protocol validity. -/
theorem validateImageUrl_spec (url : String) :
    ((validateImageUrl url).valid = true ↔
      ∃ u, jsParseURL url = some u ∧ u.protocol ∈ ["http:".data, "https:".data]
        ∧ hasValidExtension u.pathname = true) ∧
    (∀ u, jsParseURL url = some u → u.protocol ∉ ["http:".data, "https:".data] →
      validateImageUrl url = ⟨false, some "Invalid protocol"⟩) ∧
    (∀ u, jsParseURL url = some u → hasValidExtension u.pathname = false →
      (validateImageUrl url).valid = false) := by
  rcases h : jsParseURL url with _ | u
  · refine ⟨?_, ?_, ?_⟩ <;> simp [validateImageUrl, h]
  · have hmem : u.protocol ∈ ["http:".data, "https:".data] ↔
        (u.protocol = "http:".data ∨ u.protocol = "https:".data) := by simp
    by_cases hp : u.protocol = "http:".data ∨ u.protocol = "https:".data
    · rcases hext : hasValidExtension u.pathname with _ | _ <;>
        refine ⟨?_, ?_, ?_⟩ <;>
        simp [validateImageUrl, h, hmem.mpr hp, hext] <;> tauto
    · refine ⟨?_, ?_, ?_⟩ <;>
        simp [validateImageUrl, h, hmem, hp]

/-- Witness for C5 at a URL whose protocol and extension are both invalid:
the reported reason is the protocol one. -/
theorem validateImageUrl_spec_witness :
    validateImageUrl "ftp://example.com/a.txt" = ⟨false, some "Invalid protocol"⟩ :=
  (validateImageUrl_spec "ftp://example.com/a.txt").2.1
    ⟨"ftp:".data, "example.com".data, "/a.txt".data⟩ (by decide) (by decide)

lemma safePathChar_not_term {c : Char} (h : isSafePathChar c = true) :
    isPathTermChar c = false := by
  by_cases h1 : c = '?'
  · subst h1; exact absurd h (by decide)
  · by_cases h2 : c = '#'
    · subst h2; exact absurd h (by decide)
    · simp [isPathTermChar, h1, h2]

lemma data_ne_nil_of_ne_empty {p : String} (h : p ≠ "") : p.data ≠ [] := by
  intro hd
  exact h (by cases p with | mk l => cases hd; rfl)

/-- C7: with the default configuration, `convertToOriginalUrl` inverts
`convertToProxyUrl` on every well-formed origin URL
`https://<originalDomain>/wallpaper/<non-empty safe path>`, and
`convertToProxyUrl` returns `null` for every URL that parses to a hostname
different from the configured domain. -/
theorem convert_round_trip (p : String) (hne : p ≠ "")
    (hsafe : ∀ c ∈ p.data, isSafePathChar c = true) :
    (convertToProxyUrl ("https://" ++ DEFAULT_PROXY_CONFIG.originalDomain ++ "/wallpaper/" ++ p)
        DEFAULT_PROXY_CONFIG).bind
        (fun proxyUrl => convertToOriginalUrl proxyUrl DEFAULT_PROXY_CONFIG)
      = some ("https://" ++ DEFAULT_PROXY_CONFIG.originalDomain ++ "/wallpaper/" ++ p) ∧
    (∀ url obj, jsParseURL url = some obj →
      obj.hostname ≠ DEFAULT_PROXY_CONFIG.originalDomain.data →
      convertToProxyUrl url DEFAULT_PROXY_CONFIG = none) := by
  constructor
  · have hpd : p.data ≠ [] := data_ne_nil_of_ne_empty hne
    have hasStr : p.data.asString = p := by
      cases p with
      | mk l => rfl
    have hconc1 : ∀ c ∈ "wallpaper/".data, isPathTermChar c = false := by decide
    have hconc2 : ∀ c ∈ "api/wallpaper/".data, isPathTermChar c = false := by decide
    have hpath1 : ∀ c ∈ ("wallpaper/".data ++ p.data), isPathTermChar c = false := by
      intro c hc
      rcases List.mem_append.1 hc with hc | hc
      · exact hconc1 c hc
      · exact safePathChar_not_term (hsafe c hc)
    have hpath2 : ∀ c ∈ ("api/wallpaper/".data ++ p.data), isPathTermChar c = false := by
      intro c hc
      rcases List.mem_append.1 hc with hc | hc
      · exact hconc2 c hc
      · exact safePathChar_not_term (hsafe c hc)
    have hu : ("https://" ++ DEFAULT_PROXY_CONFIG.originalDomain ++ "/wallpaper/" ++ p).data
        = "https".data ++ ':' :: '/' :: '/' ::
          ("infinitypro-img.infinitynewtab.com".data ++ '/' :: ("wallpaper/".data ++ p.data)) := by
      cases p with
      | mk l => rfl
    have hparse1 : jsParseURL
        ("https://" ++ DEFAULT_PROXY_CONFIG.originalDomain ++ "/wallpaper/" ++ p)
        = some ⟨"https".data.map Char.toLower ++ [':'],
            "infinitypro-img.infinitynewtab.com".data.map Char.toLower,
            '/' :: ("wallpaper/".data ++ p.data)⟩ := by
      show jsParseURLCore _ = _
      rw [hu]
      exact jsParseURLCore_std "https".data "infinitypro-img.infinitynewtab.com".data
        ("wallpaper/".data ++ p.data) (by decide) (by decide) (by decide) (by decide)
        (by decide) hpath1
    have hcap1 : captureTail "/wallpaper/".data ('/' :: ("wallpaper/".data ++ p.data))
        = some p.data := by
      show captureTail "/wallpaper/".data ("/wallpaper/".data ++ p.data) = some p.data
      exact captureTail_at_head _ _ (by decide) hpd
    have hstep1 : convertToProxyUrl
        ("https://" ++ DEFAULT_PROXY_CONFIG.originalDomain ++ "/wallpaper/" ++ p)
        DEFAULT_PROXY_CONFIG
        = some (DEFAULT_PROXY_CONFIG.baseUrl ++ DEFAULT_PROXY_CONFIG.proxyPath ++ "/" ++ p) := by
      simp only [convertToProxyUrl, hparse1]
      rw [if_neg (not_not_intro (by decide)), hcap1]
      show some (DEFAULT_PROXY_CONFIG.baseUrl ++ DEFAULT_PROXY_CONFIG.proxyPath ++ "/"
        ++ p.data.asString) = _
      rw [hasStr]
    have hv : ((DEFAULT_PROXY_CONFIG.baseUrl ++ DEFAULT_PROXY_CONFIG.proxyPath ++ "/" ++ p)).data
        = "https".data ++ ':' :: '/' :: '/' ::
          ("your-domain.vercel.app".data ++ '/' :: ("api/wallpaper/".data ++ p.data)) := by
      cases p with
      | mk l => rfl
    have hparse2 : jsParseURL
        (DEFAULT_PROXY_CONFIG.baseUrl ++ DEFAULT_PROXY_CONFIG.proxyPath ++ "/" ++ p)
        = some ⟨"https".data.map Char.toLower ++ [':'],
            "your-domain.vercel.app".data.map Char.toLower,
            '/' :: ("api/wallpaper/".data ++ p.data)⟩ := by
      show jsParseURLCore _ = _
      rw [hv]
      exact jsParseURLCore_std "https".data "your-domain.vercel.app".data
        ("api/wallpaper/".data ++ p.data) (by decide) (by decide) (by decide) (by decide)
        (by decide) hpath2
    have hcap2 : captureTail (DEFAULT_PROXY_CONFIG.proxyPath ++ "/").data
        ('/' :: ("api/wallpaper/".data ++ p.data)) = some p.data := by
      show captureTail "/api/wallpaper/".data ("/api/wallpaper/".data ++ p.data) = some p.data
      exact captureTail_at_head _ _ (by decide) hpd
    have hstep2 : convertToOriginalUrl
        (DEFAULT_PROXY_CONFIG.baseUrl ++ DEFAULT_PROXY_CONFIG.proxyPath ++ "/" ++ p)
        DEFAULT_PROXY_CONFIG
        = some ("https://" ++ DEFAULT_PROXY_CONFIG.originalDomain ++ "/wallpaper/" ++ p) := by
      simp only [convertToOriginalUrl, hparse2, hcap2, hasStr]
    rw [hstep1]
    show convertToOriginalUrl
      (DEFAULT_PROXY_CONFIG.baseUrl ++ DEFAULT_PROXY_CONFIG.proxyPath ++ "/" ++ p)
      DEFAULT_PROXY_CONFIG = _
    exact hstep2
  · intro url obj hobj hne'
    simp only [convertToProxyUrl, hobj]
    rw [if_pos hne']

/-- Witness for C7 at the path from the service's own usage example,
`bigLink/17021.jpg`. -/
theorem convert_round_trip_witness :
    (convertToProxyUrl
        ("https://" ++ DEFAULT_PROXY_CONFIG.originalDomain ++ "/wallpaper/" ++ "bigLink/17021.jpg")
        DEFAULT_PROXY_CONFIG).bind
        (fun proxyUrl => convertToOriginalUrl proxyUrl DEFAULT_PROXY_CONFIG)
      = some ("https://" ++ DEFAULT_PROXY_CONFIG.originalDomain ++ "/wallpaper/"
          ++ "bigLink/17021.jpg") :=
  (convert_round_trip "bigLink/17021.jpg" (by decide) (by decide)).1
